import Mathlib

/-!
Verification of the songscraper resolution/selection pipeline
(`src/songscraper.py`) via a shallow embedding in Lean 4.

Modelling conventions:
* Python strings are Lean `String`s; character-level operations work on
  `String.data : List Char`.
* Python exceptions (`ValueError`, `RuntimeError`) become `Option`/`Except`
  results; the spec's error taxonomy is the inductive `SErr`.
* Network calls (`search_songs`) are passed in as a function parameter giving
  the remote service's response; the interactive `input()` stream is passed in
  as a `List String` of successive user entries.  An interactive prompt loop
  that exhausts its input list (i.e. the human never answers validly) yields
  `none`, standing for the real program blocking forever in the loop.
-/

namespace Songscraper

/-! ### Python string primitives -/

/-- Python `str.strip()` whitespace set (ASCII part). -/
def isPySpace (c : Char) : Bool :=
  c = ' ' || c = '\t' || c = '\n' || c = '\r' || c.toNat = 11 || c.toNat = 12

/-- `str.strip()` on a character list: drop whitespace from both ends. -/
def pyStripList (l : List Char) : List Char :=
  ((l.dropWhile isPySpace).reverse.dropWhile isPySpace).reverse

/-- Python `str.strip()`. -/
def pyStrip (s : String) : String :=
  ⟨pyStripList s.data⟩

/-- ASCII decimal digit test (the case Python `str.isdigit` sees here). -/
def isDig (c : Char) : Bool :=
  '0' ≤ c && c ≤ '9'

/-- Python `str.isdigit()`: non-empty and all digits. -/
def pyIsdigit (s : String) : Bool :=
  !s.data.isEmpty && s.data.all isDig

/-- Numeric value of a digit character. -/
def digitVal (c : Char) : Nat :=
  c.toNat - 48

/-- Python `int()` on a digit-only string: left fold in base 10. -/
def decVal (ds : List Char) : Nat :=
  ds.foldl (fun a c => a * 10 + digitVal c) 0

/-- Python `int()` on a `String` of digits. -/
def strToNat (s : String) : Nat :=
  decVal s.data

/-! ### `sanitize_filename` (songscraper.py lines 100-101) -/

/-- The character class of `re.sub(r'[\\/:*?"<>|]', "_", s)`. -/
def badChars : List Char :=
  ['\\', '/', ':', '*', '?', '"', '<', '>', '|']

/-- Action of the substitution on one character. -/
def sanitizeChar (c : Char) : Char :=
  if c ∈ badChars then '_' else c

/-- `sanitize_filename`: the char-class substitution is a character-wise map. -/
def sanitizeFilename (s : String) : String :=
  ⟨s.data.map sanitizeChar⟩

/-! ### `dedupe_preserve_order` (songscraper.py lines 152-160) -/

/-- The loop of `dedupe_preserve_order`, with the Python `set` of already-seen
items modelled by a list queried for membership. -/
def dedupeAux [DecidableEq α] (seen : List α) : List α → List α
  | [] => []
  | x :: xs =>
    if x ∈ seen then dedupeAux seen xs
    else x :: dedupeAux (x :: seen) xs

/-- `dedupe_preserve_order`. -/
def dedupePreserveOrder [DecidableEq α] (items : List α) : List α :=
  dedupeAux [] items

/-- Specification-side deduplication, written from the spec's words: keep the
first occurrence of each element, removing every later duplicate. -/
def specDedupe [DecidableEq α] : List α → List α
  | [] => []
  | x :: xs => x :: specDedupe (xs.filter (· ≠ x))
termination_by l => l.length
decreasing_by
  simp only [List.length_cons]
  exact Nat.lt_succ_of_le (List.length_filter_le _ _)

/-! ### `extract_song_id` (songscraper.py lines 14-21)

`re.search(r"-s(\d+)", url)` finds the leftmost position where `-s` is
followed by at least one digit and captures the maximal digit run there;
`int` of the capture is returned.  No match raises `ValueError`, modelled
as `none`. -/

/-- One attempt of the regex engine at the head of the remaining input:
succeeds iff the input starts with `'-'`, `'s'`, then at least one digit,
capturing the maximal digit run. -/
def tryMatchPattern : List Char → Option (List Char)
  | '-' :: 's' :: rest =>
    let ds := rest.takeWhile isDig
    if ds.isEmpty then none else some ds
  | _ => none

/-- The left-to-right scan of `re.search`. -/
def extractAux : List Char → Option Nat
  | [] => none
  | c :: rest =>
    match tryMatchPattern (c :: rest) with
    | some ds => some (decVal ds)
    | none => extractAux rest

/-- `extract_song_id`. -/
def extractSongId (url : String) : Option Nat :=
  extractAux url.data

/-- Spec-side pattern test: position `i` of `s` starts an occurrence of
`-s` followed by one or more digits. -/
def matchAtB (s : List Char) (i : Nat) : Bool :=
  match s.drop i with
  | '-' :: 's' :: c :: _ => isDig c
  | _ => false

/-! ### Data model -/

/-- `RevisionRecord`: the fields of a revision the program reads. -/
structure Rev where
  revisionId : Nat
  createdAt : String
  authorName : String
deriving DecidableEq

/-- `SongRecord`: the fields of a search result the program reads. -/
structure Song where
  songId : Nat
  artist : String
  title : String
deriving DecidableEq

/-- The fields of the revision-detail JSON that `download_gp_file` reads;
`none` models an absent key. -/
structure RevisionData where
  source : Option String
  artist : Option String
  title : Option String
deriving DecidableEq

/-- The spec's error taxonomy as surfaced by the embedded pipeline.
`noChoice` stands for an interactive prompt loop that never receives a
valid entry (the real program blocks forever re-prompting). -/
inductive SErr where
  | malformedRef
  | noInput
  | emptySearch
  | noResults
  | noChoice
deriving DecidableEq

/-! ### `get_latest_revision_id` (songscraper.py lines 36-38) -/

/-- Python `max` on a list of integers: error (`none`) on empty, else a
left fold of binary max. -/
def pyMaxNat : List Nat → Option Nat
  | [] => none
  | x :: xs => some (xs.foldl Nat.max x)

/-- `get_latest_revision_id`: highest `revisionId` wins. -/
def getLatestRevisionId (revisions : List Rev) : Option Nat :=
  pyMaxNat (revisions.map (·.revisionId))

/-! ### Interactive prompts (songscraper.py lines 53-97)

Each loop consumes successive entries of the user-input list; an exhausted
list models the human never giving a valid answer. -/

/-- The re-prompt loop of `prompt_song_choice`. -/
def songChoiceLoop (songs : List Song) : List String → Option Nat
  | [] => none
  | inp :: rest =>
    let c := pyStrip inp
    if pyIsdigit c then
      let idx := strToNat c
      if 1 ≤ idx ∧ idx ≤ songs.length then
        (songs.get? (idx - 1)).map (·.songId)
      else songChoiceLoop songs rest
    else songChoiceLoop songs rest

/-- `prompt_song_choice`: a single result is auto-selected, otherwise loop. -/
def promptSongChoice (songs : List Song) (inputs : List String) : Option Nat :=
  match songs with
  | [s] => some s.songId
  | _ => songChoiceLoop songs inputs

/-- The re-prompt loop of `prompt_revision_choice`; a blank entry selects
the latest revision via `get_latest_revision_id`. -/
def revChoiceLoop (revisions : List Rev) : List String → Option Nat
  | [] => none
  | inp :: rest =>
    let c := pyStrip inp
    if c = "" then getLatestRevisionId revisions
    else if pyIsdigit c then
      let idx := strToNat c
      if 1 ≤ idx ∧ idx ≤ revisions.length then
        (revisions.get? (idx - 1)).map (·.revisionId)
      else revChoiceLoop revisions rest
    else revChoiceLoop revisions rest

/-- `prompt_revision_choice`. -/
def promptRevisionChoice (revisions : List Rev) (inputs : List String) :
    Option Nat :=
  match revisions with
  | [r] => some r.revisionId
  | _ => revChoiceLoop revisions inputs

/-! ### Resolver (songscraper.py lines 163-196) -/

/-- Python `str.startswith` at the character level. -/
def strStartsWith : List Char → List Char → Bool
  | [], _ => true
  | _ :: _, [] => false
  | p :: ps, v :: vs => p = v && strStartsWith ps vs

/-- `is_url`. -/
def isUrl (value : String) : Bool :=
  strStartsWith "http://".data value.data || strStartsWith "https://".data value.data

/-- `build_song_ids_from_urls`: extract an id from every reference, failing
at the first reference without the pattern (the `ValueError` of
`extract_song_id` propagates). -/
def buildSongIdsFromUrls : List String → Option (List Nat)
  | [] => some []
  | u :: us =>
    match extractSongId u with
    | none => none
    | some i => (buildSongIdsFromUrls us).map (i :: ·)

/-- Failure of `build_song_ids_from_urls` surfaces as the reference error. -/
def liftBuild : Option (List Nat) → Except SErr (List Nat)
  | none => .error .malformedRef
  | some ids => .ok ids

/-- `choose_song_id`: search (remote response given by `search`), fail on an
empty result, then prompt for a choice. -/
def chooseSongId (search : String → Nat → List Song) (text : String)
    (maxResults : Nat) (inputs : List String) : Except SErr Nat :=
  let songs := search text maxResults
  if songs.isEmpty then .error .noResults
  else
    match promptSongChoice songs inputs with
    | some id => .ok id
    | none => .error .noChoice

/-- `resolve_song_ids`.  `search` is the remote search service, `inputs` the
interactive input stream for choice prompts, `promptText` the reply to the
`prompt_search_text` prompt (only read on the interactive empty-list path). -/
def resolveSongIds (urls : List String) (interactive : Bool) (maxResults : Nat)
    (search : String → Nat → List Song) (inputs : List String)
    (promptText : String) : Except SErr (List Nat) :=
  if interactive then
    match urls with
    | [] =>
      let t := pyStrip promptText
      if t = "" then .error .emptySearch
      else (chooseSongId search t maxResults inputs).map (fun k => [k])
    | _ =>
      if urls.all isUrl then liftBuild (buildSongIdsFromUrls urls)
      else
        let t := pyStrip (String.intercalate " " urls)
        if t = "" then .error .emptySearch
        else (chooseSongId search t maxResults inputs).map (fun k => [k])
  else
    match urls with
    | [] => .error .noInput
    | _ => liftBuild (buildSongIdsFromUrls urls)

/-! ### Filename derivation in `download_gp_file` (songscraper.py 104-123)

Needs `urllib.parse.urlparse(...).path` and `os.path.splitext`, embedded
below following CPython's `urlsplit` and `posixpath.splitext`. -/

/-- Characters allowed in a URL scheme after the first. -/
def isSchemeChar (c : Char) : Bool :=
  c.isAlpha || c.isDigit || c = '+' || c = '-' || c = '.'

/-- ASCII letter test used by `urlsplit` on the first scheme character. -/
def isAsciiAlpha (c : Char) : Bool :=
  ('a' ≤ c && c ≤ 'z') || ('A' ≤ c && c ≤ 'Z')

/-- Index of the first occurrence of any of `delims`, or the length. -/
def findFirstOf (l : List Char) (delims : List Char) : Nat :=
  match l with
  | [] => 0
  | c :: rest => if c ∈ delims then 0 else findFirstOf rest delims + 1

/-- `urlsplit` step 1: strip a leading `scheme:` when the prefix before the
first `':'` is a well-formed scheme. -/
def stripScheme (l : List Char) : List Char :=
  let i := findFirstOf l [':']
  let headAlpha : Bool := match l.head? with
    | some c => isAsciiAlpha c
    | none => false
  if i < l.length ∧ 0 < i ∧ headAlpha = true ∧
      (l.take i).all isSchemeChar then
    l.drop (i + 1)
  else l

/-- `urlsplit` step 2: strip `//netloc` (up to the next `/`, `?` or `#`). -/
def stripNetloc (l : List Char) : List Char :=
  match l with
  | '/' :: '/' :: rest => rest.drop (findFirstOf rest ['/', '?', '#'])
  | _ => l

/-- `urlparse(url).path`: strip scheme, netloc, then fragment and query. -/
def urlparsePath (url : String) : String :=
  let l := stripNetloc (stripScheme url.data)
  let l := l.take (findFirstOf l ['#'])
  ⟨l.take (findFirstOf l ['?'])⟩

/-- Python `str.rfind`: rightmost index of `c`, or `-1`. -/
def pyRfind (l : List Char) (c : Char) : Int :=
  (l.foldl (fun (p : Int × Int) d =>
      (p.1 + 1, if d = c then p.1 + 1 else p.2)) (-1, -1)).2

/-- `os.path.splitext(p)[1]` for POSIX paths: the suffix from the last dot,
provided that dot lies after the last separator and the basename does not
consist solely of leading dots up to it. -/
def splitextExt (p : String) : String :=
  let l := p.data
  let si := pyRfind l '/'
  let di := pyRfind l '.'
  if di > si ∧ ((l.take di.toNat).drop (si + 1).toNat).any (· ≠ '.') then
    ⟨l.drop di.toNat⟩
  else ""

/-- The extension chosen by `download_gp_file`: the source path's extension,
defaulting to `.gp`. -/
def pickExt (sourceUrl : String) : String :=
  let ext := splitextExt (urlparsePath sourceUrl)
  if ext = "" then ".gp" else ext

/-- The filename-construction part of `download_gp_file`: `none` models the
`RuntimeError` raised when the revision data has no (or an empty) `source`;
missing `artist`/`title` default before sanitisation. -/
def gpFilename (data : RevisionData) : Option String :=
  match data.source with
  | none => none
  | some u =>
    if u = "" then none
    else
      let artist := sanitizeFilename (data.artist.getD "Unknown Artist")
      let title := sanitizeFilename (data.title.getD "Unknown Title")
      some (artist ++ " - " ++ title ++ pickExt u)

/-! ## Helper lemmas -/

theorem sanitizeChar_idem (c : Char) : sanitizeChar (sanitizeChar c) = sanitizeChar c := by
  by_cases hc : c ∈ badChars
  · simp only [sanitizeChar, if_pos hc]
    decide
  · simp only [sanitizeChar, if_neg hc, if_neg hc]

theorem dedupeAux_eq_spec [DecidableEq α] (l : List α) :
    ∀ seen : List α, dedupeAux seen l = specDedupe (l.filter (· ∉ seen)) := by
  induction l with
  | nil => intro seen; simp [dedupeAux, specDedupe]
  | cons x xs ih =>
    intro seen
    by_cases hx : x ∈ seen
    · rw [show dedupeAux seen (x :: xs) = dedupeAux seen xs from by
        simp [dedupeAux, hx]]
      rw [show (x :: xs).filter (· ∉ seen) = xs.filter (· ∉ seen) from by
        simp [List.filter_cons, hx]]
      exact ih seen
    · rw [show dedupeAux seen (x :: xs) = x :: dedupeAux (x :: seen) xs from by
        simp [dedupeAux, hx]]
      rw [show (x :: xs).filter (· ∉ seen) = x :: xs.filter (· ∉ seen) from by
        simp [List.filter_cons, hx]]
      rw [show specDedupe (x :: xs.filter (· ∉ seen)) =
          x :: specDedupe ((xs.filter (· ∉ seen)).filter (· ≠ x)) from by
        simp [specDedupe]]
      rw [ih (x :: seen)]
      congr 1
      rw [List.filter_filter]
      congr 1
      apply List.filter_congr
      intro a _
      by_cases h1 : a = x <;> by_cases h2 : a ∈ seen <;> simp [h1, h2]

theorem specDedupe_sublist [DecidableEq α] (l : List α) : (specDedupe l).Sublist l := by
  induction l using specDedupe.induct with
  | case1 => simp [specDedupe]
  | case2 x xs ih =>
    rw [show specDedupe (x :: xs) = x :: specDedupe (xs.filter (· ≠ x)) from by
      simp [specDedupe]]
    exact (ih.trans (List.filter_sublist xs)).cons₂ x

theorem mem_specDedupe [DecidableEq α] (l : List α) :
    ∀ a, a ∈ specDedupe l ↔ a ∈ l := by
  induction l using specDedupe.induct with
  | case1 => simp [specDedupe]
  | case2 x xs ih =>
    intro a
    rw [show specDedupe (x :: xs) = x :: specDedupe (xs.filter (· ≠ x)) from by
      simp [specDedupe]]
    constructor
    · intro ha
      rcases List.mem_cons.1 ha with h | h
      · exact h ▸ List.mem_cons_self _ _
      · exact List.mem_cons_of_mem _ (List.mem_of_mem_filter ((ih a).1 h))
    · intro ha
      rcases List.mem_cons.1 ha with h | h
      · exact h ▸ List.mem_cons_self _ _
      · by_cases hax : a = x
        · exact hax ▸ List.mem_cons_self _ _
        · exact List.mem_cons_of_mem _
            ((ih a).2 (List.mem_filter.2 ⟨h, by simp [hax]⟩))

theorem specDedupe_nodup [DecidableEq α] (l : List α) : (specDedupe l).Nodup := by
  induction l using specDedupe.induct with
  | case1 => simp [specDedupe]
  | case2 x xs ih =>
    rw [show specDedupe (x :: xs) = x :: specDedupe (xs.filter (· ≠ x)) from by
      simp [specDedupe]]
    refine List.nodup_cons.2 ⟨fun hx => ?_, ih⟩
    have := List.mem_filter.1 ((mem_specDedupe _ x).1 hx)
    simp at this

theorem dedupePreserveOrder_eq_spec [DecidableEq α] (l : List α) :
    dedupePreserveOrder l = specDedupe l := by
  have h := dedupeAux_eq_spec l []
  rw [List.filter_eq_self.2 (fun a _ => by simp)] at h
  exact h

/-! ## Claim theorems -/

/-- C4: `sanitize_filename` replaces every occurrence of each of the nine
characters `\ / : * ? " < > |` with `_` (position by position) and leaves all
other characters unchanged, preserving length; applying it twice equals
applying it once. -/
theorem sanitizeFilename_pointwise_idem (s : String) :
    (sanitizeFilename s).length = s.length ∧
    (∀ i : Nat, ((sanitizeFilename s).data)[i]? =
      (s.data[i]?).map (fun c => if c ∈ badChars then '_' else c)) ∧
    sanitizeFilename (sanitizeFilename s) = sanitizeFilename s := by
  refine ⟨?_, ?_, ?_⟩
  · show (s.data.map sanitizeChar).length = s.data.length
    exact List.length_map s.data sanitizeChar
  · intro i
    have h : (fun c => if c ∈ badChars then '_' else c) = sanitizeChar := by
      funext c; rfl
    rw [h]
    show (s.data.map sanitizeChar)[i]? = (s.data[i]?).map sanitizeChar
    exact List.getElem?_map sanitizeChar s.data i
  · show String.mk ((s.data.map sanitizeChar).map sanitizeChar) =
      String.mk (s.data.map sanitizeChar)
    rw [List.map_map]
    congr 1
    apply List.map_congr_left
    intro a _
    exact sanitizeChar_idem a

/-- C6: deduplication keeps the first occurrence of each element in original
relative order: it agrees with the spec-side first-occurrence recursion, its
output has no duplicates and is a subsequence of the input, and
`[a, b, a, c, b]` yields `[a, b, c]`. -/
theorem dedupePreserveOrder_spec (l : List String) :
    dedupePreserveOrder l = specDedupe l ∧
    (dedupePreserveOrder l).Nodup ∧
    (dedupePreserveOrder l).Sublist l ∧
    dedupePreserveOrder ["a", "b", "a", "c", "b"] = ["a", "b", "c"] := by
  refine ⟨dedupePreserveOrder_eq_spec l, ?_, ?_, by decide⟩
  · rw [dedupePreserveOrder_eq_spec l]; exact specDedupe_nodup l
  · rw [dedupePreserveOrder_eq_spec l]; exact specDedupe_sublist l

/-- C9: in non-interactive mode with an empty reference list, the resolver
fails with the no-input error and produces no identifiers. -/
theorem resolve_empty_batch_noInput (maxResults : Nat)
    (search : String → Nat → List Song) (inputs : List String)
    (promptText : String) :
    resolveSongIds [] false maxResults search inputs promptText =
      Except.error SErr.noInput := rfl

theorem le_foldl_max (xs : List Nat) : ∀ x : Nat, x ≤ xs.foldl Nat.max x := by
  induction xs with
  | nil => intro x; exact Nat.le_refl x
  | cons y ys ih =>
    intro x
    exact Nat.le_trans (Nat.le_max_left x y) (ih (Nat.max x y))

theorem mem_le_foldl_max (xs : List Nat) :
    ∀ x y : Nat, y ∈ xs → y ≤ xs.foldl Nat.max x := by
  induction xs with
  | nil => intro _ _ h; cases h
  | cons z zs ih =>
    intro x y hy
    simp only [List.foldl_cons]
    rcases List.mem_cons.1 hy with h | h
    · subst h
      exact Nat.le_trans (Nat.le_max_right x y) (le_foldl_max zs (Nat.max x y))
    · exact ih (Nat.max x z) y h

theorem foldl_max_mem (xs : List Nat) : ∀ x : Nat, xs.foldl Nat.max x ∈ x :: xs := by
  induction xs with
  | nil => intro x; simp
  | cons y ys ih =>
    intro x
    simp only [List.foldl_cons]
    have h := ih (Nat.max x y)
    rcases List.mem_cons.1 h with h1 | h1
    · have hm : Nat.max x y = x ∨ Nat.max x y = y := by
        rcases Nat.le_total x y with hxy | hxy
        · exact Or.inr (Nat.max_eq_right hxy)
        · exact Or.inl (Nat.max_eq_left hxy)
      rcases hm with hm | hm
      · rw [h1, hm]; exact List.mem_cons_self _ _
      · rw [h1, hm]; exact List.mem_cons_of_mem _ (List.mem_cons_self _ _)
    · exact List.mem_cons_of_mem _ (List.mem_cons_of_mem _ h1)

theorem pyMaxNat_spec (l : List Nat) (m : Nat) (h : pyMaxNat l = some m) :
    m ∈ l ∧ ∀ y ∈ l, y ≤ m := by
  match l, h with
  | x :: xs, h =>
    have hm : m = xs.foldl Nat.max x := by
      simpa [pyMaxNat] using h.symm
    subst hm
    refine ⟨foldl_max_mem xs x, ?_⟩
    intro y hy
    rcases List.mem_cons.1 hy with h1 | h1
    · exact h1 ▸ le_foldl_max xs x
    · exact mem_le_foldl_max xs x y h1

/-- Characterisation of Python `max` on a list of naturals. -/
theorem pyMaxNat_eq_some_iff (l : List Nat) (m : Nat) :
    pyMaxNat l = some m ↔ m ∈ l ∧ ∀ y ∈ l, y ≤ m := by
  constructor
  · exact pyMaxNat_spec l m
  · rintro ⟨hmem, hub⟩
    match l, hmem with
    | x :: xs, hmem =>
      have h2 : pyMaxNat (x :: xs) = some (xs.foldl Nat.max x) := rfl
      have hm2 := pyMaxNat_spec _ _ h2
      have hle : xs.foldl Nat.max x ≤ m := hub _ hm2.1
      have hge : m ≤ xs.foldl Nat.max x := by
        rcases List.mem_cons.1 hmem with h1 | h1
        · exact h1 ▸ le_foldl_max xs x
        · exact mem_le_foldl_max xs x m h1
      rw [h2, Nat.le_antisymm hle hge]

/-- C1: on any non-empty revision list, batch-mode selection returns the
maximum `revisionId`: a value occurring in the list that bounds every
`revisionId`, and which is unchanged under any permutation of the
`revisionId` multiset — in particular under reordering the records or
altering their `createdAt` fields. -/
theorem getLatestRevisionId_max (revs : List Rev) (h : revs ≠ []) :
    ∃ m, getLatestRevisionId revs = some m ∧
      m ∈ revs.map (·.revisionId) ∧
      (∀ r ∈ revs, r.revisionId ≤ m) ∧
      (∀ revs2 : List Rev,
        List.Perm (revs.map (·.revisionId)) (revs2.map (·.revisionId)) →
        getLatestRevisionId revs2 = some m) := by
  match revs, h with
  | r :: rs, _ =>
    set l := (r :: rs).map (·.revisionId) with hl
    have h2 : pyMaxNat l = some (((rs.map (·.revisionId))).foldl Nat.max r.revisionId) := rfl
    set m := (rs.map (·.revisionId)).foldl Nat.max r.revisionId
    have hm := (pyMaxNat_eq_some_iff l m).1 h2
    refine ⟨m, h2, hm.1, ?_, ?_⟩
    · intro rr hrr
      exact hm.2 _ (List.mem_map_of_mem (·.revisionId) hrr)
    · intro revs2 hperm
      apply (pyMaxNat_eq_some_iff _ m).2
      exact ⟨hperm.mem_iff.1 hm.1, fun y hy => hm.2 y (hperm.mem_iff.2 hy)⟩

/-- Witness for C1 at the spec's own example
`[(id 5, created 2020), (id 9, created 2019)]`. -/
theorem getLatestRevisionId_max_witness :
    ([⟨5, "2020", "a"⟩, ⟨9, "2019", "b"⟩] : List Rev) ≠ [] ∧
    ∃ m, getLatestRevisionId [⟨5, "2020", "a"⟩, ⟨9, "2019", "b"⟩] = some m ∧
      m ∈ ([⟨5, "2020", "a"⟩, ⟨9, "2019", "b"⟩] : List Rev).map (·.revisionId) ∧
      (∀ r ∈ ([⟨5, "2020", "a"⟩, ⟨9, "2019", "b"⟩] : List Rev), r.revisionId ≤ m) ∧
      (∀ revs2 : List Rev,
        List.Perm (([⟨5, "2020", "a"⟩, ⟨9, "2019", "b"⟩] : List Rev).map (·.revisionId))
          (revs2.map (·.revisionId)) →
        getLatestRevisionId revs2 = some m) :=
  ⟨by decide, getLatestRevisionId_max [⟨5, "2020", "a"⟩, ⟨9, "2019", "b"⟩] (by decide)⟩

theorem tryMatchPattern_none_iff (l : List Char) :
    tryMatchPattern l = none ↔ matchAtB l 0 = false := by
  match l with
  | [] => simp [tryMatchPattern, matchAtB]
  | [c1] => simp [tryMatchPattern, matchAtB]
  | [c1, c2] =>
    by_cases h1 : c1 = '-' <;> by_cases h2 : c2 = 's' <;>
      simp [tryMatchPattern, matchAtB, h1, h2]
  | c1 :: c2 :: c3 :: t =>
    by_cases h1 : c1 = '-' <;> by_cases h2 : c2 = 's' <;>
      by_cases h3 : isDig c3 = true <;>
      simp [tryMatchPattern, matchAtB, List.takeWhile, h1, h2, h3]

theorem tryMatchPattern_eq_some (l : List Char) (ds : List Char)
    (h : tryMatchPattern l = some ds) :
    ds = (l.drop 2).takeWhile isDig ∧ matchAtB l 0 = true := by
  match l with
  | [] => simp [tryMatchPattern] at h
  | [c1] => simp [tryMatchPattern] at h
  | [c1, c2] =>
    by_cases h1 : c1 = '-' <;> by_cases h2 : c2 = 's' <;>
      simp [tryMatchPattern, h1, h2, List.takeWhile] at h
  | c1 :: c2 :: c3 :: t =>
    by_cases h1 : c1 = '-' <;> by_cases h2 : c2 = 's' <;>
      by_cases h3 : isDig c3 = true <;>
      simp_all [tryMatchPattern, matchAtB, List.takeWhile, h1, h2, h3]

theorem matchAtB_ge_length (l : List Char) (i : Nat) (h : l.length ≤ i) :
    matchAtB l i = false := by
  simp [matchAtB, List.drop_eq_nil_of_le h]

theorem matchAtB_cons (c : Char) (rest : List Char) (i : Nat) :
    matchAtB (c :: rest) (i + 1) = matchAtB rest i := by
  simp [matchAtB, List.drop_succ_cons]

theorem extractAux_eq_none_iff (l : List Char) :
    extractAux l = none ↔ ∀ i, matchAtB l i = false := by
  induction l with
  | nil =>
    simp only [extractAux, true_iff]
    intro i
    simp [matchAtB]
  | cons c rest ih =>
    cases h : tryMatchPattern (c :: rest) with
    | some ds =>
      have hm := (tryMatchPattern_eq_some _ _ h).2
      constructor
      · intro h2
        simp [extractAux, h] at h2
      · intro h2
        exact absurd hm (by simp [h2 0])
    | none =>
      have h0 : matchAtB (c :: rest) 0 = false := (tryMatchPattern_none_iff _).1 h
      have hstep : extractAux (c :: rest) = extractAux rest := by
        simp [extractAux, h]
      rw [hstep, ih]
      constructor
      · intro hall i
        cases i with
        | zero => exact h0
        | succ j => rw [matchAtB_cons]; exact hall j
      · intro hall j
        have := hall (j + 1)
        rwa [matchAtB_cons] at this

theorem extractAux_first_match (l : List Char) :
    ∀ i : Nat, matchAtB l i = true → (∀ j, j < i → matchAtB l j = false) →
    extractAux l = some (decVal ((l.drop (i + 2)).takeWhile isDig)) := by
  induction l with
  | nil =>
    intro i hm _
    simp [matchAtB] at hm
  | cons c rest ih =>
    intro i hm hmin
    cases i with
    | zero =>
      cases h : tryMatchPattern (c :: rest) with
      | none =>
        rw [(tryMatchPattern_none_iff _).1 h] at hm
        cases hm
      | some ds =>
        have hds := (tryMatchPattern_eq_some _ _ h).1
        simp [extractAux, h, hds]
    | succ i0 =>
      have h0 : matchAtB (c :: rest) 0 = false := hmin 0 (Nat.succ_pos i0)
      have hnone : tryMatchPattern (c :: rest) = none :=
        (tryMatchPattern_none_iff _).2 h0
      have hstep : extractAux (c :: rest) = extractAux rest := by
        simp [extractAux, hnone]
      rw [hstep]
      have hm2 : matchAtB rest i0 = true := by
        rw [← matchAtB_cons c rest i0]; exact hm
      have hmin2 : ∀ j, j < i0 → matchAtB rest j = false := by
        intro j hj
        rw [← matchAtB_cons c rest j]
        exact hmin (j + 1) (Nat.succ_lt_succ hj)
      rw [ih i0 hm2 hmin2]
      rfl

/-- C2: `extract_song_id` succeeds exactly on strings containing `-s`
followed by one or more digits, and on the leftmost such occurrence (at
position `i`, every earlier position failing to match) it returns precisely
the integer denoted by the maximal digit run after that `-s`; with no
occurrence it fails (the `ValueError` standing for
`MalformedReferenceError`). -/
theorem extractSongId_spec (s : String) :
    (extractSongId s = none ↔ ∀ i, matchAtB s.data i = false) ∧
    (∀ i : Nat, matchAtB s.data i = true →
      (∀ j, j < i → matchAtB s.data j = false) →
      extractSongId s = some (decVal ((s.data.drop (i + 2)).takeWhile isDig))) :=
  ⟨extractAux_eq_none_iff s.data, fun i hm hmin =>
    extractAux_first_match s.data i hm hmin⟩

/-- Witness for C2: `"tab-s505453"` matches at position 3 and nowhere
earlier, and extraction returns 505453; `"some text"` matches nowhere and
extraction fails. -/
theorem extractSongId_spec_witness :
    matchAtB "tab-s505453".data 3 = true ∧
    (∀ j, j < 3 → matchAtB "tab-s505453".data j = false) ∧
    extractSongId "tab-s505453" = some 505453 ∧
    extractSongId "some text" = none := by
  refine ⟨by decide, by decide, ?_, ?_⟩
  · have h := (extractSongId_spec "tab-s505453").2 3 (by decide) (by decide)
    rw [h]
    rfl
  · rw [(extractSongId_spec "some text").1]
    intro i
    by_cases hi : i < ("some text".data).length
    · have hb : ∀ j < ("some text".data).length, matchAtB "some text".data j = false := by
        decide
      exact hb i hi
    · exact matchAtB_ge_length _ _ (Nat.le_of_not_lt hi)

theorem buildSongIds_eq_none (urls : List String)
    (h : ∃ u ∈ urls, extractSongId u = none) :
    buildSongIdsFromUrls urls = none := by
  induction urls with
  | nil => rcases h with ⟨u, hu, _⟩; cases hu
  | cons v vs ih =>
    rcases h with ⟨u, hu, hnone⟩
    rcases List.mem_cons.1 hu with h1 | h1
    · subst h1
      simp [buildSongIdsFromUrls, hnone]
    · cases hv : extractSongId v with
      | none => simp [buildSongIdsFromUrls, hv]
      | some i => simp [buildSongIdsFromUrls, hv, ih ⟨u, h1, hnone⟩]

theorem buildSongIds_eq_some (urls : List String) :
    ∀ ids : List Nat, urls.map extractSongId = ids.map some →
    buildSongIdsFromUrls urls = some ids := by
  induction urls with
  | nil =>
    intro ids h
    have : ids = [] := by
      cases ids with
      | nil => rfl
      | cons a as => simp at h
    subst this
    rfl
  | cons v vs ih =>
    intro ids h
    cases ids with
    | nil => simp at h
    | cons a as =>
      simp only [List.map_cons, List.cons.injEq] at h
      simp [buildSongIdsFromUrls, h.1, ih as h.2]

/-- Counterexample for C3: the reference `"foo-s12"` is not URL-shaped, yet
non-interactive resolution succeeds with `[12]` instead of failing — the
resolver never performs a URL-shape check. -/
theorem resolve_batch_no_urlcheck_counterexample :
    isUrl "foo-s12" = false ∧
    resolveSongIds ["foo-s12"] false 20 (fun _ _ => []) [] "" =
      Except.ok [12] :=
  ⟨by decide, rfl⟩

/-- C3 as amended: in non-interactive mode on a non-empty list, resolution
fails (with the propagated reference error) exactly when identifier
extraction fails on some reference — no URL-shape check is performed — and
otherwise returns exactly one identifier per reference, in order. -/
theorem resolve_batch_amended (urls : List String) (maxResults : Nat)
    (search : String → Nat → List Song) (inputs : List String)
    (promptText : String) (h : urls ≠ []) :
    ((∃ u ∈ urls, extractSongId u = none) →
      resolveSongIds urls false maxResults search inputs promptText =
        Except.error SErr.malformedRef) ∧
    (∀ ids : List Nat, urls.map extractSongId = ids.map some →
      resolveSongIds urls false maxResults search inputs promptText =
        Except.ok ids) := by
  match urls, h with
  | u :: us, _ =>
    have hres : resolveSongIds (u :: us) false maxResults search inputs promptText =
        liftBuild (buildSongIdsFromUrls (u :: us)) := rfl
    constructor
    · intro hex
      rw [hres, buildSongIds_eq_none _ hex]
      rfl
    · intro ids hmap
      rw [hres, buildSongIds_eq_some _ ids hmap]
      rfl

/-- Witness for C3 (amended): a list with one pattern-free reference fails,
and a list of two URL references yields both ids in order. -/
theorem resolve_batch_amended_witness :
    resolveSongIds ["https://a-s3", "plain"] false 20 (fun _ _ => []) [] "" =
      Except.error SErr.malformedRef ∧
    resolveSongIds ["https://a-s3", "https://b-s4"] false 20 (fun _ _ => []) [] "" =
      Except.ok [3, 4] :=
  ⟨(resolve_batch_amended ["https://a-s3", "plain"] 20 (fun _ _ => []) [] ""
      (by decide)).1 ⟨"plain", by decide, rfl⟩,
   (resolve_batch_amended ["https://a-s3", "https://b-s4"] 20 (fun _ _ => []) [] ""
      (by decide)).2 [3, 4] rfl⟩

/-- Counterexample for C7: `[""]` is a non-empty reference list that is not
all URL-shaped, yet interactive resolution does not search and does not
return a chosen identifier — the joined text strips to blank, so it fails
with the empty-search error even though search results and a valid user
choice are available. -/
theorem resolve_interactive_blank_counterexample :
    (([""] : List String) ≠ []) ∧
    (([""] : List String).all isUrl = false) ∧
    resolveSongIds [""] true 20 (fun _ _ => [⟨7, "a", "t"⟩]) ["1"] "" =
      Except.error SErr.emptySearch :=
  ⟨by decide, by decide, rfl⟩

/-- C7 as amended: in interactive mode with a non-empty reference list not
all URL-shaped, the references are joined into one query; if the joined,
trimmed text is blank the resolver fails with the empty-search error, and
otherwise it searches with that text and, whenever the search response is
non-empty and the user's interaction selects song `k`, returns exactly
`[k]`. -/
theorem resolve_interactive_search_amended (urls : List String)
    (maxResults : Nat) (search : String → Nat → List Song)
    (inputs : List String) (promptText : String)
    (h1 : urls ≠ []) (h2 : urls.all isUrl = false) :
    (pyStrip (String.intercalate " " urls) = "" →
      resolveSongIds urls true maxResults search inputs promptText =
        Except.error SErr.emptySearch) ∧
    (pyStrip (String.intercalate " " urls) ≠ "" →
      search (pyStrip (String.intercalate " " urls)) maxResults ≠ [] →
      ∀ k : Nat,
        promptSongChoice (search (pyStrip (String.intercalate " " urls)) maxResults)
          inputs = some k →
        resolveSongIds urls true maxResults search inputs promptText =
          Except.ok [k]) := by
  match urls, h1 with
  | u :: us, _ =>
    constructor
    · intro ht
      simp [resolveSongIds, h2, ht]
    · intro ht hne k hk
      have hstep : resolveSongIds (u :: us) true maxResults search inputs promptText =
          (chooseSongId search (pyStrip (String.intercalate " " (u :: us)))
            maxResults inputs).map (fun k => [k]) := by
        simp [resolveSongIds, h2, ht]
      rw [hstep]
      have hem : (search (pyStrip (String.intercalate " " (u :: us))) maxResults).isEmpty
          = false := by
        cases hs : search (pyStrip (String.intercalate " " (u :: us))) maxResults with
        | nil => exact absurd hs hne
        | cons a as => rfl
      have hcs : chooseSongId search (pyStrip (String.intercalate " " (u :: us)))
          maxResults inputs = Except.ok k := by
        simp [chooseSongId, hem, hk]
      rw [hcs]
      rfl

/-- Witness for C7 (amended): references `["hello", "world"]` are joined to
the query `"hello world"`; with a two-song response and user entry `"2"`,
resolution returns exactly the chosen id `[8]`. -/
theorem resolve_interactive_search_amended_witness :
    resolveSongIds ["hello", "world"] true 20
      (fun q _ => if q = "hello world" then [⟨7, "a", "t"⟩, ⟨8, "b", "u"⟩] else [])
      ["2"] "" = Except.ok [8] :=
  (resolve_interactive_search_amended ["hello", "world"] 20
      (fun q _ => if q = "hello world" then [⟨7, "a", "t"⟩, ⟨8, "b", "u"⟩] else [])
      ["2"] "" (by decide) (by decide)).2 (by decide) (by decide) 8 rfl

theorem pyIsdigit_ne_empty (s : String) (h : pyIsdigit s = true) : s ≠ "" := by
  intro he
  subst he
  simp [pyIsdigit, List.isEmpty] at h

/-- C8: interactive revision selection auto-selects a singleton list for any
input stream; on a list of two or more revisions, a blank (after strip)
first entry selects the latest via `get_latest_revision_id` (the
max-`revisionId` rule), and a numeric first entry `k` with
`1 ≤ k ≤ N` selects the `k`-th listed revision's `revisionId`. -/
theorem promptRevisionChoice_spec :
    (∀ (r : Rev) (inputs : List String),
      promptRevisionChoice [r] inputs = some r.revisionId) ∧
    (∀ (revs : List Rev) (inp : String) (rest : List String),
      2 ≤ revs.length → pyStrip inp = "" →
      promptRevisionChoice revs (inp :: rest) = getLatestRevisionId revs) ∧
    (∀ (revs : List Rev) (inp : String) (rest : List String) (k : Nat),
      2 ≤ revs.length → pyIsdigit (pyStrip inp) = true →
      strToNat (pyStrip inp) = k → 1 ≤ k → k ≤ revs.length →
      promptRevisionChoice revs (inp :: rest) =
        (revs.get? (k - 1)).map (·.revisionId)) := by
  refine ⟨fun r inputs => rfl, ?_, ?_⟩
  · intro revs inp rest hlen hblank
    match revs, hlen with
    | a :: b :: t, _ =>
      show revChoiceLoop (a :: b :: t) (inp :: rest) = getLatestRevisionId (a :: b :: t)
      simp [revChoiceLoop, hblank]
  · intro revs inp rest k hlen hdig hk h1 hN
    match revs, hlen with
    | a :: b :: t, _ =>
      show revChoiceLoop (a :: b :: t) (inp :: rest) =
        ((a :: b :: t).get? (k - 1)).map (·.revisionId)
      have hne : pyStrip inp ≠ "" := pyIsdigit_ne_empty _ hdig
      simp only [revChoiceLoop, if_neg hne, hdig, if_pos, hk]
      rw [if_pos ⟨h1, hN⟩]

/-- Witness for C8 on the revision list `[(id 5), (id 9)]`: a singleton is
auto-selected, a blank entry yields the latest, and entry `" 2 "` yields the
second listed revision. -/
theorem promptRevisionChoice_spec_witness :
    promptRevisionChoice [⟨5, "2020", "x"⟩] ["junk"] = some 5 ∧
    promptRevisionChoice [⟨5, "2020", "x"⟩, ⟨9, "2019", "y"⟩] ["", "z"] =
      getLatestRevisionId [⟨5, "2020", "x"⟩, ⟨9, "2019", "y"⟩] ∧
    promptRevisionChoice [⟨5, "2020", "x"⟩, ⟨9, "2019", "y"⟩] [" 2 "] =
      (([⟨5, "2020", "x"⟩, ⟨9, "2019", "y"⟩] : List Rev).get? (2 - 1)).map
        (·.revisionId) :=
  ⟨promptRevisionChoice_spec.1 ⟨5, "2020", "x"⟩ ["junk"],
   promptRevisionChoice_spec.2.1 [⟨5, "2020", "x"⟩, ⟨9, "2019", "y"⟩] "" ["z"]
     (by decide) (by decide),
   promptRevisionChoice_spec.2.2 [⟨5, "2020", "x"⟩, ⟨9, "2019", "y"⟩] " 2 " [] 2
     (by decide) (by decide) (by decide) (by decide) (by decide)⟩

/-- C5: the output filename is
`sanitize(artist) ++ " - " ++ sanitize(title) ++ ext`, where `ext` is the
extension of the source URL's path component and defaults to `".gp"` when
the path has none; in particular artist `AC/DC`, title `T.N.T.` and a
source path ending in `file.gp5` give `AC_DC - T.N.T..gp5`. -/
theorem gpFilename_construction :
    (∀ a t u : String, u ≠ "" →
      gpFilename ⟨some u, some a, some t⟩ =
        some (sanitizeFilename a ++ " - " ++ sanitizeFilename t ++ pickExt u)) ∧
    (∀ u : String, splitextExt (urlparsePath u) = "" → pickExt u = ".gp") ∧
    (∀ u : String, splitextExt (urlparsePath u) ≠ "" →
      pickExt u = splitextExt (urlparsePath u)) ∧
    gpFilename ⟨some "https://gp.songsterr.com/some/dir/file.gp5",
        some "AC/DC", some "T.N.T."⟩ =
      some "AC_DC - T.N.T..gp5" := by
  refine ⟨?_, ?_, ?_, ?_⟩
  · intro a t u hu
    simp [gpFilename, hu]
  · intro u h
    simp [pickExt, h]
  · intro u h
    simp [pickExt, h]
  · rfl

/-- Witness for C5: the general construction rule applied at a concrete
extension-free source URL, where the `.gp` default takes over. -/
theorem gpFilename_construction_witness :
    gpFilename ⟨some "https://x.com/files/abc", some "The Who", some "5:15"⟩ =
      some (sanitizeFilename "The Who" ++ " - " ++ sanitizeFilename "5:15" ++
        pickExt "https://x.com/files/abc") ∧
    pickExt "https://x.com/files/abc" = ".gp" :=
  ⟨gpFilename_construction.1 "The Who" "5:15" "https://x.com/files/abc" (by decide),
   gpFilename_construction.2.1 "https://x.com/files/abc" (by decide)⟩

/-- C10: with a present, non-empty source URL but missing artist or title
fields, filename construction does not fail: the artist defaults to
`Unknown Artist` and the title to `Unknown Title`. -/
theorem gpFilename_defaults (u : String) (hu : u ≠ "") :
    (∀ a t : Option String, (gpFilename ⟨some u, a, t⟩).isSome = true) ∧
    gpFilename ⟨some u, none, none⟩ =
      some ("Unknown Artist" ++ " - " ++ "Unknown Title" ++ pickExt u) ∧
    (∀ t : String, gpFilename ⟨some u, none, some t⟩ =
      some ("Unknown Artist" ++ " - " ++ sanitizeFilename t ++ pickExt u)) ∧
    (∀ a : String, gpFilename ⟨some u, some a, none⟩ =
      some (sanitizeFilename a ++ " - " ++ "Unknown Title" ++ pickExt u)) := by
  have hart : sanitizeFilename "Unknown Artist" = "Unknown Artist" := by decide
  have htit : sanitizeFilename "Unknown Title" = "Unknown Title" := by decide
  refine ⟨?_, ?_, ?_, ?_⟩
  · intro a t
    simp [gpFilename, hu]
  · simp [gpFilename, hu, hart, htit]
  · intro t
    simp [gpFilename, hu, hart]
  · intro a
    simp [gpFilename, hu, htit]

/-- Witness for C10 at a concrete source URL with both fields missing and
with exactly one missing. -/
theorem gpFilename_defaults_witness :
    gpFilename ⟨some "https://x.com/f.gp3", none, none⟩ =
      some ("Unknown Artist" ++ " - " ++ "Unknown Title" ++
        pickExt "https://x.com/f.gp3") ∧
    gpFilename ⟨some "https://x.com/f.gp3", none, some "T.N.T."⟩ =
      some ("Unknown Artist" ++ " - " ++ sanitizeFilename "T.N.T." ++
        pickExt "https://x.com/f.gp3") :=
  ⟨(gpFilename_defaults "https://x.com/f.gp3" (by decide)).2.1,
   (gpFilename_defaults "https://x.com/f.gp3" (by decide)).2.2.1 "T.N.T."⟩

end Songscraper
